import Mathlib

/-!
Shallow embedding of `little_cheesemonger/_cli.py`.

Strings are modelled as `List Char`.  Python's single exception type
`LittleCheesemongerError` is modelled as `PyError.lcm kind msg`, where `kind`
records which raise site produced the error (the spec's four error kinds) and
`msg` is the literal message string built by the code; every other Python
exception is `PyError.other msg` (its `str()` rendering).  External
collaborators (`import_loader_function` from `_loader.py`, `default_loader`,
`run`) are fields of an `Env` record, since their bodies are not part of the
visible source.  The control flow of `entrypoint` additionally records a trace
of observable events (collaborator calls, the defensive copy, error logging) so
that ordering claims can be stated.
-/

set_option autoImplicit false

namespace LittleCheesemonger

/-- Strings as lists of characters. -/
abbrev Str := List Char

/-- Converts a Lean string literal into the `List Char` model. -/
def lit (s : String) : Str := s.data

/-- An apostrophe character (used in the malformed-argument message). -/
def squote : Char := Char.ofNat 39

/-- The raise site of a `LittleCheesemongerError` (the spec's four kinds). -/
inductive LcmKind where
  | invalidArgumentCombination
  | malformedArgument
  | loaderNotFound
  | loaderExecutionFailed
deriving DecidableEq

/-- A Python exception: either `LittleCheesemongerError` (with its raise-site
kind and message) or any other exception (with its `str()` message). -/
inductive PyError where
  | lcm (kind : LcmKind) (msg : Str)
  | other (msg : Str)
deriving DecidableEq

/-- The `str()` rendering of an exception, as interpolated by f-strings. -/
def errMsg : PyError → Str
  | .lcm _ m => m
  | .other m => m

/-- Configuration mapping handed to the run collaborator (opaque to the core;
modelled as an association list of string pairs). -/
abbrev ConfigurationType := List (Str × Str)

/-- A resolved loader: its Python `repr` (as interpolated into the
execution-failure message) and its callable behaviour. -/
structure LoaderFn where
  fnRepr : Str
  fn : Str → List Str → List (Str × Str) → Except PyError ConfigurationType

/-- External collaborators of `_cli.py`: `import_loader_function` (from
`_loader.py`), `default_loader` (from `_loader.py`) and `run` (from
`_run.py`).  Their bodies are outside the visible source, so `entrypoint` is
parametrised over them. -/
structure Env where
  import_loader_function : Str → Except PyError LoaderFn
  default_loader : Str → Except PyError ConfigurationType
  run : ConfigurationType → Except PyError Unit

/-- Modelled from the spec: section 4.2 says the Loader Resolver "fails with a
`LoaderNotFound` error (wrapping the underlying resolution failure) if any
segment of the path cannot be located, or if the final attribute does not
exist".  The body of `import_loader_function` lives in `_loader.py`, which is
not part of the visible source, so this contract on the `Env` stands in for
it: resolution either returns a callable or fails with a `loaderNotFound`
error. -/
def ResolverContract (env : Env) : Prop :=
  ∀ path, (∃ loader, env.import_loader_function path = .ok loader) ∨
    (∃ m, env.import_loader_function path = .error (.lcm .loaderNotFound m))

/-- Observable events of one `entrypoint` invocation, in order. -/
inductive Event where
  | copyDefault
  | resolveAttempt (path : Str)
  | parseKwargsAttempt
  | loaderCall (fnRepr dir : Str) (args : List Str) (kwargs : List (Str × Str))
  | defaultLoaderCall (dir : Str)
  | runCall (cfg : ConfigurationType)
  | logError (withTrace : Bool) (e : PyError)
deriving DecidableEq

/-- The terminal outcome of one `entrypoint` invocation: normal return (the
process exits with status 0), an explicit `exit(1)`, or an exception that the
entry point does not catch and that propagates out. -/
inductive Outcome where
  | success
  | exit (code : Nat)
  | uncaught (e : PyError)
deriving DecidableEq

/-- Number of occurrences of the separator character in a raw string
(Python's `raw_kwarg.count("=")`, used to characterise `split`). -/
def eqCount : Str → Nat
  | [] => 0
  | c :: rest => (if c = '=' then 1 else 0) + eqCount rest

/-- Prepends a character to the first part of a split result. -/
def consHead (c : Char) : List Str → List Str
  | [] => [[c]]
  | s :: ss => (c :: s) :: ss

/-- Python's `raw_kwarg.split("=")`: split on every occurrence of the
separator, keeping empty parts; the empty string splits to one empty part. -/
def splitOnEq : Str → List Str
  | [] => [[]]
  | c :: rest => if c = '=' then [] :: splitOnEq rest else consHead c (splitOnEq rest)

/-- The part of a raw string before its first separator. -/
def keyOf : Str → Str
  | [] => []
  | c :: rest => if c = '=' then [] else c :: keyOf rest

/-- The part of a raw string after its first separator. -/
def valOf : Str → Str
  | [] => []
  | c :: rest => if c = '=' then rest else valOf rest

/-- Python dict assignment `kwargs[key] = value`: replaces the value of an
existing key in place, otherwise appends the new entry at the end. -/
def dictSet : List (Str × Str) → Str → Str → List (Str × Str)
  | [], key, value => [(key, value)]
  | p :: rest, key, value =>
      if p.1 = key then (key, value) :: rest else p :: dictSet rest key value

/-- Python dict lookup `d[key]` (as an `Option`). -/
def dictGet : List (Str × Str) → Str → Option Str
  | [], _ => none
  | p :: rest, key => if p.1 = key then some p.2 else dictGet rest key

/-- The value carried by the last raw string in the list whose key part equals
`key` (the "later duplicates overwrite earlier ones" reading). -/
def lastValueFor (key : Str) : List Str → Option Str
  | [] => none
  | raw :: rest =>
      match lastValueFor key rest with
      | some v => some v
      | none => if keyOf raw = key then some (valOf raw) else none

/-- Message prefix of the malformed-argument error raised by
`process_kwargs`. -/
def malformedMsgPre : Str := lit "Invalid keyword argument " ++ [squote]

/-- Message suffix of the malformed-argument error raised by
`process_kwargs`. -/
def malformedMsgPost : Str :=
  [squote] ++ lit " received for --loader-kwarg option. Keyword arguments must be in KEY=VALUE format."

/-- The message of the malformed-argument error:
`f"Invalid keyword argument '{raw_kwarg}' received for --loader-kwarg option. Keyword arguments must be in KEY=VALUE format."`. -/
def malformedMsg (raw : Str) : Str := malformedMsgPre ++ raw ++ malformedMsgPost

/-- The message of the invalid-argument-combination error. -/
def invalidArgMsg : Str :=
  lit "Additional loader arguments can only be used with a custom loader."

/-- The message of the loader-execution-failure error: the f-string
"Error executing loader BT{loader}BT: {e}" (BT a backtick) with the loader's
repr and the original exception's description interpolated. -/
def execFailMsg (loaderRepr orig : Str) : Str :=
  lit "Error executing loader `" ++ loaderRepr ++ lit "`: " ++ orig

/-- Tail-recursive body of `process_kwargs`: the `for raw_kwarg in raw_kwargs`
loop over the accumulated dict.  `key, value = raw_kwarg.split("=")` succeeds
exactly when the split has two parts; otherwise the `ValueError` is caught and
a `LittleCheesemongerError` is raised. -/
def processKwargsAux (acc : List (Str × Str)) : List Str → Except PyError (List (Str × Str))
  | [] => .ok acc
  | raw :: rest =>
      match splitOnEq raw with
      | [key, value] => processKwargsAux (dictSet acc key value) rest
      | _ => .error (.lcm .malformedArgument (malformedMsg raw))

/-- Embedding of `process_kwargs` from `_cli.py`. -/
def process_kwargs (raw_kwargs : List Str) : Except PyError (List (Str × Str)) :=
  processKwargsAux [] raw_kwargs

/-- Embedding of the body of the `try:` block of `entrypoint` in `_cli.py`,
returning the result (success, or the first exception raised) together with
the ordered trace of observable events.  The line
`configuration = copy.copy(DEFAULT_CONFIGURATION)` is recorded as the
`copyDefault` event; the copied value itself is reassigned on every path
before being used (both the custom-loader branch and the default branch bind
`configuration` anew), which the trace-based claims make precise. -/
def entrypointBody (env : Env) (directory : Str) (loader_import_path : Option Str)
    (loader_args loader_kwargs_raw : List Str) : Except PyError Unit × List Event :=
  if (!loader_args.isEmpty || !loader_kwargs_raw.isEmpty) && loader_import_path.isNone then
    (.error (.lcm .invalidArgumentCombination invalidArgMsg), [])
  else
    match loader_import_path with
    | some path =>
        match env.import_loader_function path with
        | .error e => (.error e, [.copyDefault, .resolveAttempt path])
        | .ok loader =>
            match process_kwargs loader_kwargs_raw with
            | .error e =>
                (.error e, [.copyDefault, .resolveAttempt path, .parseKwargsAttempt])
            | .ok loader_kwargs =>
                match loader.fn directory loader_args loader_kwargs with
                | .error e =>
                    (.error (.lcm .loaderExecutionFailed
                        (execFailMsg loader.fnRepr (errMsg e))),
                     [.copyDefault, .resolveAttempt path, .parseKwargsAttempt,
                      .loaderCall loader.fnRepr directory loader_args loader_kwargs])
                | .ok configuration =>
                    match env.run configuration with
                    | .error e =>
                        (.error e,
                         [.copyDefault, .resolveAttempt path, .parseKwargsAttempt,
                          .loaderCall loader.fnRepr directory loader_args loader_kwargs,
                          .runCall configuration])
                    | .ok _ =>
                        (.ok (),
                         [.copyDefault, .resolveAttempt path, .parseKwargsAttempt,
                          .loaderCall loader.fnRepr directory loader_args loader_kwargs,
                          .runCall configuration])
    | none =>
        match env.default_loader directory with
        | .error e => (.error e, [.copyDefault, .defaultLoaderCall directory])
        | .ok configuration =>
            match env.run configuration with
            | .error e =>
                (.error e,
                 [.copyDefault, .defaultLoaderCall directory, .runCall configuration])
            | .ok _ =>
                (.ok (),
                 [.copyDefault, .defaultLoaderCall directory, .runCall configuration])

/-- Embedding of `entrypoint` from `_cli.py`: runs the `try:` body and applies
the `except LittleCheesemongerError` handler, which logs the error (with trace
detail when `debug` is set) and calls `exit(1)`.  Any other exception is not
caught and propagates. -/
def entrypoint (env : Env) (directory : Str) (loader_import_path : Option Str)
    (loader_args loader_kwargs_raw : List Str) (debug : Bool) : Outcome × List Event :=
  match entrypointBody env directory loader_import_path loader_args loader_kwargs_raw with
  | (.ok _, evs) => (.success, evs)
  | (.error (.lcm k m), evs) => (.exit 1, evs ++ [.logError debug (.lcm k m)])
  | (.error (.other m), evs) => (.uncaught (.other m), evs)

/-- Recognises loader-call events in a trace. -/
def isLoaderCall : Event → Bool
  | .loaderCall _ _ _ _ => true
  | _ => false

/-- Recognises every event that does loader work or hands data onward (all
events except the defensive copy and error logging). -/
def isLoaderWork : Event → Bool
  | .resolveAttempt _ => true
  | .parseKwargsAttempt => true
  | .loaderCall _ _ _ _ => true
  | .defaultLoaderCall _ => true
  | .runCall _ => true
  | _ => false

/-! Lemmas about the split of raw keyword strings. -/

theorem splitOnEq_ne_nil (l : Str) : splitOnEq l ≠ [] := by
  induction l with
  | nil => simp [splitOnEq]
  | cons c rest ih =>
    simp only [splitOnEq]
    split
    · simp
    · cases h : splitOnEq rest with
      | nil => simp [consHead]
      | cons s ss => simp [consHead]

theorem splitOnEq_length (l : Str) : (splitOnEq l).length = eqCount l + 1 := by
  induction l with
  | nil => simp [splitOnEq, eqCount]
  | cons c rest ih =>
    simp only [splitOnEq, eqCount]
    split
    · simp [ih]; omega
    · cases h : splitOnEq rest with
      | nil => exact absurd h (splitOnEq_ne_nil rest)
      | cons s ss =>
        simp [consHead, h] at ih ⊢
        omega

theorem splitOnEq_of_count_zero (l : Str) (h : eqCount l = 0) : splitOnEq l = [l] := by
  induction l with
  | nil => simp [splitOnEq]
  | cons c rest ih =>
    simp only [eqCount] at h
    have hc : ¬ c = '=' := by
      intro hcc
      simp [hcc] at h
    have hrest : eqCount rest = 0 := by
      simp [hc] at h
      exact h
    simp [splitOnEq, hc, ih hrest, consHead]

theorem splitOnEq_of_count_one (l : Str) (h : eqCount l = 1) :
    splitOnEq l = [keyOf l, valOf l] := by
  induction l with
  | nil => simp [eqCount] at h
  | cons c rest ih =>
    simp only [eqCount] at h
    by_cases hc : c = '='
    · have hrest : eqCount rest = 0 := by simp [hc] at h; omega
      simp [splitOnEq, hc, keyOf, valOf, splitOnEq_of_count_zero rest hrest]
    · have hrest : eqCount rest = 1 := by simp [hc] at h; omega
      simp [splitOnEq, hc, keyOf, valOf, ih hrest, consHead]

theorem count_one_decompose (l : Str) (h : eqCount l = 1) :
    l = keyOf l ++ '=' :: valOf l := by
  induction l with
  | nil => simp [eqCount] at h
  | cons c rest ih =>
    simp only [eqCount] at h
    by_cases hc : c = '='
    · simp [keyOf, valOf, hc]
    · have hrest : eqCount rest = 1 := by simp [hc] at h; omega
      simp only [keyOf, valOf, if_neg hc, List.cons_append]
      rw [← ih hrest]

theorem splitOnEq_ne_pair (l : Str) (h : eqCount l ≠ 1) (k v : Str) :
    splitOnEq l ≠ [k, v] := by
  intro heq
  have := splitOnEq_length l
  rw [heq] at this
  simp at this
  omega

/-! Lemmas about the dict model. -/

theorem dictGet_dictSet (d : List (Str × Str)) (k v k' : Str) :
    dictGet (dictSet d k v) k' = if k = k' then some v else dictGet d k' := by
  induction d with
  | nil =>
    by_cases hk : k = k' <;> simp [dictSet, dictGet, hk]
  | cons p rest ih =>
    by_cases hp : p.1 = k
    · by_cases hk : k = k'
      · simp [dictSet, dictGet, hp, hk]
      · have hpk' : ¬ p.1 = k' := by rw [hp]; exact hk
        simp [dictSet, dictGet, hp, hk, hpk']
    · simp only [dictSet, if_neg hp]
      by_cases hpk : p.1 = k'
      · have hkk : ¬ k = k' := fun hc => hp (hpk.trans hc.symm)
        simp [dictGet, hpk, hkk]
      · simp [dictGet, hpk, ih]

/-! Lemmas about the kwarg-parsing loop. -/

theorem processKwargsAux_ok (raws : List Str) (h : ∀ r ∈ raws, eqCount r = 1)
    (acc : List (Str × Str)) :
    ∃ d, processKwargsAux acc raws = .ok d ∧
      ∀ key, dictGet d key = ((lastValueFor key raws).orElse (fun _ => dictGet acc key)) := by
  induction raws generalizing acc with
  | nil =>
    refine ⟨acc, rfl, ?_⟩
    intro key
    simp [lastValueFor, Option.orElse]
  | cons raw rest ih =>
    have hraw : eqCount raw = 1 := h raw (List.mem_cons_self raw rest)
    have hrest : ∀ r ∈ rest, eqCount r = 1 := fun r hr => h r (List.mem_cons_of_mem raw hr)
    obtain ⟨d, hd, hget⟩ := ih hrest (dictSet acc (keyOf raw) (valOf raw))
    refine ⟨d, ?_, ?_⟩
    · simp [processKwargsAux, splitOnEq_of_count_one raw hraw, hd]
    · intro key
      rw [hget key, dictGet_dictSet]
      simp only [lastValueFor]
      cases hlv : lastValueFor key rest with
      | some v => simp [Option.orElse]
      | none =>
        by_cases hkey : keyOf raw = key <;> simp [Option.orElse, hkey]

theorem processKwargsAux_malformed (acc : List (Str × Str)) (pre : List Str) (raw : Str)
    (post : List Str) (hpre : ∀ r ∈ pre, eqCount r = 1) (hraw : eqCount raw ≠ 1) :
    processKwargsAux acc (pre ++ raw :: post) =
      .error (.lcm .malformedArgument (malformedMsg raw)) := by
  induction pre generalizing acc with
  | nil =>
    simp only [List.nil_append, processKwargsAux]
    cases hs : splitOnEq raw with
    | nil => exact absurd hs (splitOnEq_ne_nil raw)
    | cons a tl =>
      cases tl with
      | nil => simp
      | cons b tl2 =>
        cases tl2 with
        | nil => exact absurd hs (splitOnEq_ne_pair raw hraw a b)
        | cons c tl3 => simp
  | cons r rest ih =>
    have hr : eqCount r = 1 := hpre r (List.mem_cons_self r rest)
    have hrest : ∀ x ∈ rest, eqCount x = 1 := fun x hx => hpre x (List.mem_cons_of_mem r hx)
    simp only [List.cons_append, processKwargsAux, splitOnEq_of_count_one r hr]
    exact ih (dictSet acc (keyOf r) (valOf r)) hrest

/-! Concrete environments used to instantiate the theorems. -/

/-- A loader that returns a configuration recording the directory it saw. -/
def loaderFn0 : LoaderFn :=
  ⟨lit "fn", fun dir _ _ => .ok [(lit "dir", dir)]⟩

/-- An environment whose resolver knows exactly the reference pkg.mod.fn. -/
def envOk : Env :=
  ⟨fun p => if p = lit "pkg.mod.fn" then .ok loaderFn0
    else .error (.lcm .loaderNotFound (lit "loader not found")),
   fun _ => .ok [], fun _ => .ok ()⟩

/-- A loader that always raises an arbitrary (non-core) exception. -/
def loaderBoom : LoaderFn :=
  ⟨lit "boom", fun _ _ _ => .error (.other (lit "kaboom"))⟩

/-- An environment whose resolver always succeeds with the raising loader. -/
def envBoom : Env :=
  ⟨fun _ => .ok loaderBoom, fun _ => .ok [], fun _ => .ok ()⟩

/-- An environment whose resolver never finds the referenced loader. -/
def envNoResolve : Env :=
  ⟨fun _ => .error (.lcm .loaderNotFound (lit "loader not found")),
   fun _ => .ok [], fun _ => .ok ()⟩

/-- An environment whose default loader raises a non-core exception. -/
def envDefaultBoom : Env :=
  ⟨fun _ => .error (.lcm .loaderNotFound (lit "loader not found")),
   fun _ => .error (.other (lit "default boom")), fun _ => .ok ()⟩

/-! Claim theorems. -/

/-- C5: for every raw keyword string containing exactly one separator, parsing
succeeds and yields a single mapping entry whose key is the substring before
the separator and whose value is the substring after it; across a sequence of
such strings, each contributes its entry and later duplicate keys overwrite
earlier ones (the final value of every key is the one carried by the last raw
string with that key). -/
theorem c5_kwarg_parsing (raws : List Str) (h : ∀ r ∈ raws, eqCount r = 1) :
    ∃ d, process_kwargs raws = .ok d ∧
      (∀ key, dictGet d key = lastValueFor key raws) ∧
      ∀ raw ∈ raws, process_kwargs [raw] = .ok [(keyOf raw, valOf raw)] ∧
        raw = keyOf raw ++ '=' :: valOf raw := by
  obtain ⟨d, hd, hget⟩ := processKwargsAux_ok raws h []
  refine ⟨d, hd, ?_, ?_⟩
  · intro key
    rw [hget key]
    cases lastValueFor key raws <;> simp [Option.orElse, dictGet]
  · intro raw hraw
    have h1 := h raw hraw
    refine ⟨?_, count_one_decompose raw h1⟩
    simp [process_kwargs, processKwargsAux, splitOnEq_of_count_one raw h1, dictSet]

/-- C5 witness: the concrete sequence x=1, y=2, x=3 parses; the duplicate key
x ends up mapped to 3, and y to 2. -/
theorem c5_kwarg_parsing_witness :
    (∀ r ∈ [lit "x=1", lit "y=2", lit "x=3"], eqCount r = 1) ∧
    (∃ d, process_kwargs [lit "x=1", lit "y=2", lit "x=3"] = .ok d ∧
      (∀ key, dictGet d key = lastValueFor key [lit "x=1", lit "y=2", lit "x=3"]) ∧
      ∀ raw ∈ [lit "x=1", lit "y=2", lit "x=3"],
        process_kwargs [raw] = .ok [(keyOf raw, valOf raw)] ∧
          raw = keyOf raw ++ '=' :: valOf raw) :=
  ⟨by decide, c5_kwarg_parsing [lit "x=1", lit "y=2", lit "x=3"] (by decide)⟩

/-- C6: for every raw keyword string containing zero or more than one
separator (and any well-formed strings before it), parsing fails with the
malformed-argument error whose message names the offending string and the
expected KEY=VALUE shape; the string is never skipped. -/
theorem c6_malformed_argument (pre : List Str) (raw : Str) (post : List Str)
    (hpre : ∀ r ∈ pre, eqCount r = 1) (hraw : eqCount raw ≠ 1) :
    process_kwargs (pre ++ raw :: post) =
      .error (.lcm .malformedArgument (malformedMsg raw)) ∧
    (∃ a b, malformedMsg raw = a ++ raw ++ b) ∧
    (∃ a b, malformedMsg raw = a ++ lit "KEY=VALUE" ++ b) := by
  refine ⟨processKwargsAux_malformed [] pre raw post hpre hraw,
    ⟨malformedMsgPre, malformedMsgPost, rfl⟩, ?_⟩
  refine ⟨malformedMsgPre ++ raw ++
    ([squote] ++ lit " received for --loader-kwarg option. Keyword arguments must be in "),
    lit " format.", ?_⟩
  have hsplit : malformedMsgPost =
      ([squote] ++ lit " received for --loader-kwarg option. Keyword arguments must be in ") ++
        (lit "KEY=VALUE" ++ lit " format.") := by decide
  simp [malformedMsg, hsplit, List.append_assoc]

/-- C6 witness: with a=1 well-formed before it, the string bad (no separator)
makes parsing fail with the malformed-argument error naming bad. -/
theorem c6_malformed_argument_witness :
    (∀ r ∈ [lit "a=1"], eqCount r = 1) ∧ eqCount (lit "bad") ≠ 1 ∧
    (process_kwargs ([lit "a=1"] ++ lit "bad" :: [lit "c=2"]) =
      .error (.lcm .malformedArgument (malformedMsg (lit "bad"))) ∧
    (∃ a b, malformedMsg (lit "bad") = a ++ lit "bad" ++ b) ∧
    (∃ a b, malformedMsg (lit "bad") = a ++ lit "KEY=VALUE" ++ b)) :=
  ⟨by decide, by decide,
    c6_malformed_argument [lit "a=1"] (lit "bad") [lit "c=2"] (by decide) (by decide)⟩

/-- C10: the parser performs no non-emptiness validation on keys or values:
every raw string with exactly one separator whose key part or value part is
empty still parses successfully into the corresponding entry. -/
theorem c10_empty_key_or_value (raw : Str) (h1 : eqCount raw = 1)
    (_h2 : keyOf raw = [] ∨ valOf raw = []) :
    process_kwargs [raw] = .ok [(keyOf raw, valOf raw)] := by
  simp [process_kwargs, processKwargsAux, splitOnEq_of_count_one raw h1, dictSet]

/-- C10 witness: the bare separator string parses into the entry with empty
key and empty value, and k= and =v parse likewise. -/
theorem c10_empty_key_or_value_witness :
    (eqCount (lit "=") = 1 ∧ (keyOf (lit "=") = [] ∨ valOf (lit "=") = []) ∧
      process_kwargs [lit "="] = .ok [(keyOf (lit "="), valOf (lit "="))]) ∧
    process_kwargs [lit "k="] = .ok [(lit "k", [])] ∧
    process_kwargs [lit "=v"] = .ok [([], lit "v")] :=
  ⟨⟨by decide, by decide, c10_empty_key_or_value (lit "=") (by decide) (by decide)⟩,
    rfl, rfl⟩

/-- C2: whenever positional or raw keyword loader arguments are non-empty
while the loader reference is absent, the body fails immediately with the
invalid-argument-combination error and an empty event trace: no resolution
attempt, no keyword parsing, no loader call; the entry point then logs the
error and exits with status 1. -/
theorem c2_invalid_argument_combination (env : Env) (directory : Str)
    (loader_args loader_kwargs_raw : List Str) (debug : Bool)
    (h : loader_args ≠ [] ∨ loader_kwargs_raw ≠ []) :
    entrypointBody env directory none loader_args loader_kwargs_raw =
      (.error (.lcm .invalidArgumentCombination invalidArgMsg), []) ∧
    entrypoint env directory none loader_args loader_kwargs_raw debug =
      (.exit 1, [.logError debug (.lcm .invalidArgumentCombination invalidArgMsg)]) := by
  rcases h with h | h
  · obtain ⟨x, xs, rfl⟩ := List.exists_cons_of_ne_nil h
    exact ⟨by simp [entrypointBody], by simp [entrypoint, entrypointBody]⟩
  · obtain ⟨x, xs, rfl⟩ := List.exists_cons_of_ne_nil h
    exact ⟨by simp [entrypointBody], by simp [entrypoint, entrypointBody]⟩

/-- C2 witness: one positional loader argument without a loader reference is
rejected with the invalid-argument-combination error and an empty trace. -/
theorem c2_invalid_argument_combination_witness :
    ([lit "a"] ≠ ([] : List Str) ∨ ([] : List Str) ≠ []) ∧
    (entrypointBody envOk (lit ".") none [lit "a"] [] =
      (.error (.lcm .invalidArgumentCombination invalidArgMsg), []) ∧
    entrypoint envOk (lit ".") none [lit "a"] [] true =
      (.exit 1, [.logError true (.lcm .invalidArgumentCombination invalidArgMsg)])) :=
  ⟨by simp, c2_invalid_argument_combination envOk (lit ".") [lit "a"] [] true (by simp)⟩

/-- C1: when the loader reference resolves and the raw keyword arguments
parse, the resolved loader is invoked exactly once, with the directory
argument first, the positional arguments in the order supplied, and the
parsed keyword arguments (one loader-call event in the trace, carrying
exactly these arguments). -/
theorem c1_loader_invocation (env : Env) (directory path : Str)
    (loader_args loader_kwargs_raw : List Str) (debug : Bool) (loader : LoaderFn)
    (loader_kwargs : List (Str × Str))
    (hres : env.import_loader_function path = .ok loader)
    (hkw : process_kwargs loader_kwargs_raw = .ok loader_kwargs) :
    ((entrypoint env directory (some path) loader_args loader_kwargs_raw debug).2.countP
        isLoaderCall = 1) ∧
      Event.loaderCall loader.fnRepr directory loader_args loader_kwargs ∈
        (entrypoint env directory (some path) loader_args loader_kwargs_raw debug).2 := by
  rcases hfn : loader.fn directory loader_args loader_kwargs with e | cfg
  · constructor <;>
      simp [entrypoint, entrypointBody, hres, hkw, hfn, List.countP_cons, isLoaderCall]
  · rcases hrun : env.run cfg with e | u
    · rcases e with ⟨k, m⟩ | m <;> constructor <;>
        simp [entrypoint, entrypointBody, hres, hkw, hfn, hrun, List.countP_cons, isLoaderCall]
    · constructor <;>
        simp [entrypoint, entrypointBody, hres, hkw, hfn, hrun, List.countP_cons, isLoaderCall]

/-- C1 witness: the spec's end-to-end example — reference pkg.mod.fn,
positionals a, b and raw kwarg x=1 — produces exactly one loader call, with
the directory dot first, then a, b, then the entry mapping x to 1. -/
theorem c1_loader_invocation_witness :
    envOk.import_loader_function (lit "pkg.mod.fn") = .ok loaderFn0 ∧
    process_kwargs [lit "x=1"] = .ok [(lit "x", lit "1")] ∧
    (((entrypoint envOk (lit ".") (some (lit "pkg.mod.fn")) [lit "a", lit "b"]
        [lit "x=1"] false).2.countP isLoaderCall = 1) ∧
      Event.loaderCall loaderFn0.fnRepr (lit ".") [lit "a", lit "b"] [(lit "x", lit "1")] ∈
        (entrypoint envOk (lit ".") (some (lit "pkg.mod.fn")) [lit "a", lit "b"]
          [lit "x=1"] false).2) :=
  ⟨rfl, rfl,
    c1_loader_invocation envOk (lit ".") (lit "pkg.mod.fn") [lit "a", lit "b"]
      [lit "x=1"] false loaderFn0 [(lit "x", lit "1")] rfl rfl⟩

/-- C3: when the resolved loader's invocation raises any failure — of any
type, including the core's own error type — the body re-raises a single
loader-execution-failed error whose message embeds the original failure's
description and the loader's repr; the original failure value itself never
becomes the body's result. -/
theorem c3_execution_failure_wrapped (env : Env) (directory path : Str)
    (loader_args loader_kwargs_raw : List Str) (loader : LoaderFn)
    (loader_kwargs : List (Str × Str)) (e : PyError)
    (hres : env.import_loader_function path = .ok loader)
    (hkw : process_kwargs loader_kwargs_raw = .ok loader_kwargs)
    (hfn : loader.fn directory loader_args loader_kwargs = .error e) :
    (entrypointBody env directory (some path) loader_args loader_kwargs_raw).1 =
      .error (.lcm .loaderExecutionFailed (execFailMsg loader.fnRepr (errMsg e))) ∧
    (∃ a, execFailMsg loader.fnRepr (errMsg e) = a ++ errMsg e) ∧
    (∃ a b, execFailMsg loader.fnRepr (errMsg e) = a ++ loader.fnRepr ++ b) ∧
    (entrypointBody env directory (some path) loader_args loader_kwargs_raw).1 ≠
      .error e := by
  refine ⟨by simp [entrypointBody, hres, hkw, hfn], ⟨_, rfl⟩,
    ⟨lit "Error executing loader `", lit "`: " ++ errMsg e, by
      simp [execFailMsg, List.append_assoc]⟩, ?_⟩
  intro hcontra
  rcases e with ⟨k, m⟩ | m
  · simp [entrypointBody, hres, hkw, hfn, errMsg] at hcontra
    obtain ⟨hk, hm⟩ := hcontra
    have hlenA : (lit "Error executing loader `").length = 24 := by decide
    have hlenB : (lit "`: ").length = 3 := by decide
    have hlen := congrArg List.length hm
    simp [execFailMsg, List.length_append, hlenA, hlenB] at hlen
    omega
  · simp [entrypointBody, hres, hkw, hfn] at hcontra

/-- C3 witness: a loader that raises a non-core exception with description
kaboom is wrapped into the loader-execution-failed error whose message
contains kaboom and the loader's repr. -/
theorem c3_execution_failure_wrapped_witness :
    envBoom.import_loader_function (lit "pkg.mod.fn") = .ok loaderBoom ∧
    process_kwargs [] = .ok [] ∧
    loaderBoom.fn (lit ".") [] [] = .error (.other (lit "kaboom")) ∧
    ((entrypointBody envBoom (lit ".") (some (lit "pkg.mod.fn")) [] []).1 =
      .error (.lcm .loaderExecutionFailed
        (execFailMsg loaderBoom.fnRepr (errMsg (.other (lit "kaboom"))))) ∧
    (∃ a, execFailMsg loaderBoom.fnRepr (errMsg (.other (lit "kaboom"))) =
      a ++ errMsg (.other (lit "kaboom"))) ∧
    (∃ a b, execFailMsg loaderBoom.fnRepr (errMsg (.other (lit "kaboom"))) =
      a ++ loaderBoom.fnRepr ++ b) ∧
    (entrypointBody envBoom (lit ".") (some (lit "pkg.mod.fn")) [] []).1 ≠
      .error (.other (lit "kaboom"))) :=
  ⟨rfl, rfl, rfl,
    c3_execution_failure_wrapped envBoom (lit ".") (lit "pkg.mod.fn") [] []
      loaderBoom [] (.other (lit "kaboom")) rfl rfl rfl⟩

/-- C4: resolution and invocation are separate steps.  Under the
spec-modelled resolver contract, a reference that does not resolve makes the
body fail with the loader-not-found error, after which no loader call appears
in the trace; the loader-not-found kind is distinct from the
loader-execution-failed kind, so the two failures are distinguishable. -/
theorem c4_resolution_failure_distinct (env : Env) (directory path : Str)
    (loader_args loader_kwargs_raw : List Str) (debug : Bool)
    (hrc : ResolverContract env)
    (hfail : ∀ loader, env.import_loader_function path ≠ .ok loader) :
    ∃ m, entrypointBody env directory (some path) loader_args loader_kwargs_raw =
      (.error (.lcm .loaderNotFound m), [.copyDefault, .resolveAttempt path]) ∧
    entrypoint env directory (some path) loader_args loader_kwargs_raw debug =
      (.exit 1, [.copyDefault, .resolveAttempt path,
        .logError debug (.lcm .loaderNotFound m)]) ∧
    (∀ r d a kw, Event.loaderCall r d a kw ∉
        (entrypoint env directory (some path) loader_args loader_kwargs_raw debug).2) ∧
    LcmKind.loaderNotFound ≠ LcmKind.loaderExecutionFailed := by
  rcases hrc path with ⟨loader, hl⟩ | ⟨m, hm⟩
  · exact absurd hl (hfail loader)
  · refine ⟨m, ?_, ?_, ?_, by decide⟩ <;>
      simp [entrypoint, entrypointBody, hm]

/-- C4 witness: in the never-resolving environment, invoking with a loader
reference exits with status 1 on the loader-not-found error and the trace
contains no loader call. -/
theorem c4_resolution_failure_distinct_witness :
    ResolverContract envNoResolve ∧
    (∃ m, entrypointBody envNoResolve (lit ".") (some (lit "pkg.mod.fn")) [] [] =
      (.error (.lcm .loaderNotFound m), [.copyDefault, .resolveAttempt (lit "pkg.mod.fn")]) ∧
    entrypoint envNoResolve (lit ".") (some (lit "pkg.mod.fn")) [] [] false =
      (.exit 1, [.copyDefault, .resolveAttempt (lit "pkg.mod.fn"),
        .logError false (.lcm .loaderNotFound m)]) ∧
    (∀ r d a kw, Event.loaderCall r d a kw ∉
        (entrypoint envNoResolve (lit ".") (some (lit "pkg.mod.fn")) [] [] false).2) ∧
    LcmKind.loaderNotFound ≠ LcmKind.loaderExecutionFailed) :=
  ⟨fun _ => Or.inr ⟨lit "loader not found", rfl⟩,
    c4_resolution_failure_distinct envNoResolve (lit ".") (lit "pkg.mod.fn") [] [] false
      (fun _ => Or.inr ⟨lit "loader not found", rfl⟩)
      (fun loader h => by simp [envNoResolve] at h)⟩

/-- When the argument-combination check passes with an absent loader
reference, both argument lists are empty. -/
theorem not_val_none (loader_args loader_kwargs_raw : List Str)
    (hval : ¬((!loader_args.isEmpty || !loader_kwargs_raw.isEmpty) &&
      (none : Option Str).isNone) = true) :
    loader_args = [] ∧ loader_kwargs_raw = [] := by
  constructor
  · cases loader_args with
    | nil => rfl
    | cons x xs => exact absurd (by simp) hval
  · cases loader_kwargs_raw with
    | nil => rfl
    | cons x xs => exact absurd (by simp) hval

/-- The body of the try-block never logs: logging happens only in the
entry point's handler. -/
theorem entrypointBody_no_log (env : Env) (directory : Str) (lip : Option Str)
    (loader_args loader_kwargs_raw : List Str) (b : Bool) (e : PyError) :
    Event.logError b e ∉
      (entrypointBody env directory lip loader_args loader_kwargs_raw).2 := by
  by_cases hval : ((!loader_args.isEmpty || !loader_kwargs_raw.isEmpty) && lip.isNone) = true
  · simp [entrypointBody, hval]
  · rcases lip with _ | path
    · obtain ⟨h1, h2⟩ := not_val_none loader_args loader_kwargs_raw hval
      subst h1
      subst h2
      rcases hdl : env.default_loader directory with e' | cfg
      · simp [entrypointBody, hdl]
      · rcases hrun : env.run cfg with e' | u <;> simp [entrypointBody, hdl, hrun]
    · rcases hres : env.import_loader_function path with e' | loader
      · simp [entrypointBody, hres]
      · rcases hkw : process_kwargs loader_kwargs_raw with e' | kwargs
        · simp [entrypointBody, hres, hkw]
        · rcases hfn : loader.fn directory loader_args kwargs with e' | cfg
          · simp [entrypointBody, hres, hkw, hfn]
          · rcases hrun : env.run cfg with e' | u <;>
              simp [entrypointBody, hres, hkw, hfn, hrun]

/-- C7 counterexample: with a loader reference that does not resolve and the
malformed raw keyword bad, the reported error is loader-not-found, not
malformed-argument, and the keyword parser never runs — so a malformed
keyword argument is not reported as MalformedArgument regardless of whether
the loader reference resolves. -/
theorem c7_counterexample :
    entrypoint envNoResolve (lit ".") (some (lit "pkg.mod.fn")) [] [lit "bad"] false =
      (.exit 1, [.copyDefault, .resolveAttempt (lit "pkg.mod.fn"),
        .logError false (.lcm .loaderNotFound (lit "loader not found"))]) ∧
    eqCount (lit "bad") ≠ 1 ∧
    (∀ b m, Event.logError b (.lcm .malformedArgument m) ∉
      (entrypoint envNoResolve (lit ".") (some (lit "pkg.mod.fn")) [] [lit "bad"] false).2) ∧
    Event.parseKwargsAttempt ∉
      (entrypoint envNoResolve (lit ".") (some (lit "pkg.mod.fn")) [] [lit "bad"] false).2 := by
  refine ⟨rfl, by decide, ?_, by decide⟩
  intro b m
  simp [entrypoint, entrypointBody, envNoResolve]

/-- C7 (amended): in every invocation with a custom loader reference, the
Loader Resolver runs before the Kwarg Parser: the trace places the
resolution attempt strictly before any keyword-parse attempt, a malformed
keyword argument is reported as MalformedArgument when the loader reference
resolves, and when resolution fails the resolution error is reported and the
parser never runs. -/
theorem c7_resolver_precedes_parsing (env : Env) (directory path : Str)
    (loader_args loader_kwargs_raw : List Str) :
    (Event.parseKwargsAttempt ∈
        (entrypointBody env directory (some path) loader_args loader_kwargs_raw).2 →
      ∃ rest, (entrypointBody env directory (some path) loader_args loader_kwargs_raw).2 =
        Event.copyDefault :: Event.resolveAttempt path ::
          Event.parseKwargsAttempt :: rest) ∧
    (∀ loader err, env.import_loader_function path = .ok loader →
      process_kwargs loader_kwargs_raw = .error err →
      entrypointBody env directory (some path) loader_args loader_kwargs_raw =
        (.error err, [.copyDefault, .resolveAttempt path, .parseKwargsAttempt])) ∧
    (∀ e, env.import_loader_function path = .error e →
      entrypointBody env directory (some path) loader_args loader_kwargs_raw =
        (.error e, [.copyDefault, .resolveAttempt path]) ∧
      Event.parseKwargsAttempt ∉
        (entrypointBody env directory (some path) loader_args loader_kwargs_raw).2) := by
  refine ⟨?_, ?_, ?_⟩
  · intro hmem
    rcases hres : env.import_loader_function path with e | loader
    · simp [entrypointBody, hres] at hmem
    · rcases hkw : process_kwargs loader_kwargs_raw with e | kwargs
      · exact ⟨[], by simp [entrypointBody, hres, hkw]⟩
      · rcases hfn : loader.fn directory loader_args kwargs with e | cfg
        · exact ⟨[.loaderCall loader.fnRepr directory loader_args kwargs],
            by simp [entrypointBody, hres, hkw, hfn]⟩
        · rcases hrun : env.run cfg with e | u
          · exact ⟨[.loaderCall loader.fnRepr directory loader_args kwargs, .runCall cfg],
              by simp [entrypointBody, hres, hkw, hfn, hrun]⟩
          · exact ⟨[.loaderCall loader.fnRepr directory loader_args kwargs, .runCall cfg],
              by simp [entrypointBody, hres, hkw, hfn, hrun]⟩
  · intro loader err hres hkw
    simp [entrypointBody, hres, hkw]
  · intro e hres
    exact ⟨by simp [entrypointBody, hres], by simp [entrypointBody, hres]⟩

/-- C7 witness: with a resolving reference and the malformed raw keyword bad,
the body fails with the malformed-argument error, and the trace shows the
resolution attempt before the parse attempt. -/
theorem c7_resolver_precedes_parsing_witness :
    envOk.import_loader_function (lit "pkg.mod.fn") = .ok loaderFn0 ∧
    process_kwargs [lit "bad"] =
      .error (.lcm .malformedArgument (malformedMsg (lit "bad"))) ∧
    entrypointBody envOk (lit ".") (some (lit "pkg.mod.fn")) [] [lit "bad"] =
      (.error (.lcm .malformedArgument (malformedMsg (lit "bad"))),
       [.copyDefault, .resolveAttempt (lit "pkg.mod.fn"), .parseKwargsAttempt]) :=
  ⟨rfl, rfl,
    (c7_resolver_precedes_parsing envOk (lit ".") (lit "pkg.mod.fn") [] [lit "bad"]).2.1
      loaderFn0 (.lcm .malformedArgument (malformedMsg (lit "bad"))) rfl rfl⟩

/-- C8: the entry point catches exactly the recognized error type: a
recognized failure of any of the four kinds is logged and terminates with
exit status 1; an unrecognized failure — including one raised by the default
loader or the run collaborator — is not caught, is never logged, and
propagates as-is. -/
theorem c8_entry_point_boundary (env : Env) (directory : Str) (lip : Option Str)
    (loader_args loader_kwargs_raw : List Str) (debug : Bool) :
    (∀ k m, (entrypointBody env directory lip loader_args loader_kwargs_raw).1 =
        .error (.lcm k m) →
      (entrypoint env directory lip loader_args loader_kwargs_raw debug).1 = .exit 1 ∧
      Event.logError debug (.lcm k m) ∈
        (entrypoint env directory lip loader_args loader_kwargs_raw debug).2) ∧
    (∀ m, (entrypointBody env directory lip loader_args loader_kwargs_raw).1 =
        .error (.other m) →
      (entrypoint env directory lip loader_args loader_kwargs_raw debug).1 =
        .uncaught (.other m) ∧
      ∀ b e, Event.logError b e ∉
        (entrypoint env directory lip loader_args loader_kwargs_raw debug).2) ∧
    ((entrypointBody env directory lip loader_args loader_kwargs_raw).1 = .ok () →
      (entrypoint env directory lip loader_args loader_kwargs_raw debug).1 = .success) ∧
    (lip = none → loader_args = [] → loader_kwargs_raw = [] →
      ∀ m, env.default_loader directory = .error (.other m) →
        (entrypoint env directory lip loader_args loader_kwargs_raw debug).1 =
          .uncaught (.other m)) := by
  refine ⟨?_, ?_, ?_, ?_⟩
  · intro k m hr
    rcases hb : entrypointBody env directory lip loader_args loader_kwargs_raw with ⟨r, evs⟩
    rw [hb] at hr
    simp at hr
    subst hr
    constructor <;> simp [entrypoint, hb]
  · intro m hr
    rcases hb : entrypointBody env directory lip loader_args loader_kwargs_raw with ⟨r, evs⟩
    rw [hb] at hr
    simp at hr
    subst hr
    refine ⟨by simp [entrypoint, hb], ?_⟩
    intro b e
    have hno := entrypointBody_no_log env directory lip loader_args loader_kwargs_raw b e
    rw [hb] at hno
    simpa [entrypoint, hb] using hno
  · intro hr
    rcases hb : entrypointBody env directory lip loader_args loader_kwargs_raw with ⟨r, evs⟩
    rw [hb] at hr
    simp at hr
    subst hr
    simp [entrypoint, hb]
  · rintro rfl rfl rfl m hdl
    simp [entrypoint, entrypointBody, hdl]

/-- C8 witness: a default-loader failure of an unrecognized type propagates
uncaught through the entry point. -/
theorem c8_entry_point_boundary_witness :
    envDefaultBoom.default_loader (lit ".") = .error (.other (lit "default boom")) ∧
    (entrypoint envDefaultBoom (lit ".") none [] [] false).1 =
      .uncaught (.other (lit "default boom")) :=
  ⟨rfl,
    (c8_entry_point_boundary envDefaultBoom (lit ".") none [] [] false).2.2.2
      rfl rfl rfl (lit "default boom") rfl⟩

/-- C9: the entry point records the defensive copy of the default
configuration template before any loader work, and the configuration handed
to the run collaborator is always the value returned by the default loader
or by the resolved custom loader — never the shared default template binding
itself. -/
theorem c9_defensive_copy (env : Env) (directory : Str) (lip : Option Str)
    (loader_args loader_kwargs_raw : List Str) (debug : Bool) :
    (∀ cfg, Event.runCall cfg ∈
        (entrypoint env directory lip loader_args loader_kwargs_raw debug).2 →
      env.default_loader directory = .ok cfg ∨
      ∃ path loader kwargs, lip = some path ∧
        env.import_loader_function path = .ok loader ∧
        process_kwargs loader_kwargs_raw = .ok kwargs ∧
        loader.fn directory loader_args kwargs = .ok cfg) ∧
    ((∃ ev ∈ (entrypoint env directory lip loader_args loader_kwargs_raw debug).2,
        isLoaderWork ev = true) →
      (entrypoint env directory lip loader_args loader_kwargs_raw debug).2.head? =
        some Event.copyDefault) := by
  constructor
  · intro cfg hmem
    by_cases hval : ((!loader_args.isEmpty || !loader_kwargs_raw.isEmpty) && lip.isNone) = true
    · simp [entrypoint, entrypointBody, hval] at hmem
    · rcases lip with _ | path
      · obtain ⟨h1, h2⟩ := not_val_none loader_args loader_kwargs_raw hval
        subst h1
        subst h2
        rcases hdl : env.default_loader directory with e | cfg0
        · rcases e with ⟨k, m⟩ | m <;>
            simp [entrypoint, entrypointBody, hdl] at hmem
        · rcases hrun : env.run cfg0 with e | u
          · rcases e with ⟨k, m⟩ | m <;>
              · simp [entrypoint, entrypointBody, hdl, hrun] at hmem
                subst hmem
                exact Or.inl rfl
          · simp [entrypoint, entrypointBody, hdl, hrun] at hmem
            subst hmem
            exact Or.inl rfl
      · rcases hres : env.import_loader_function path with e | loader
        · rcases e with ⟨k, m⟩ | m <;>
            simp [entrypoint, entrypointBody, hres] at hmem
        · rcases hkw : process_kwargs loader_kwargs_raw with e | kwargs
          · rcases e with ⟨k, m⟩ | m <;>
              simp [entrypoint, entrypointBody, hres, hkw] at hmem
          · rcases hfn : loader.fn directory loader_args kwargs with e | cfg0
            · simp [entrypoint, entrypointBody, hres, hkw, hfn] at hmem
            · rcases hrun : env.run cfg0 with e | u
              · rcases e with ⟨k, m⟩ | m <;>
                  · simp [entrypoint, entrypointBody, hres, hkw, hfn, hrun] at hmem
                    subst hmem
                    exact Or.inr ⟨path, loader, kwargs, rfl, hres, rfl, hfn⟩
              · simp [entrypoint, entrypointBody, hres, hkw, hfn, hrun] at hmem
                subst hmem
                exact Or.inr ⟨path, loader, kwargs, rfl, hres, rfl, hfn⟩
  · rintro ⟨ev, hmem, hwork⟩
    by_cases hval : ((!loader_args.isEmpty || !loader_kwargs_raw.isEmpty) && lip.isNone) = true
    · simp [entrypoint, entrypointBody, hval] at hmem
      subst hmem
      simp [isLoaderWork] at hwork
    · rcases lip with _ | path
      · obtain ⟨h1, h2⟩ := not_val_none loader_args loader_kwargs_raw hval
        subst h1
        subst h2
        rcases hdl : env.default_loader directory with e | cfg0
        · rcases e with ⟨k, m⟩ | m <;>
            simp [entrypoint, entrypointBody, hdl]
        · rcases hrun : env.run cfg0 with e | u
          · rcases e with ⟨k, m⟩ | m <;>
              simp [entrypoint, entrypointBody, hdl, hrun]
          · simp [entrypoint, entrypointBody, hdl, hrun]
      · rcases hres : env.import_loader_function path with e | loader
        · rcases e with ⟨k, m⟩ | m <;>
            simp [entrypoint, entrypointBody, hres]
        · rcases hkw : process_kwargs loader_kwargs_raw with e | kwargs
          · rcases e with ⟨k, m⟩ | m <;>
              simp [entrypoint, entrypointBody, hres, hkw]
          · rcases hfn : loader.fn directory loader_args kwargs with e | cfg0
            · simp [entrypoint, entrypointBody, hres, hkw, hfn]
            · rcases hrun : env.run cfg0 with e | u
              · rcases e with ⟨k, m⟩ | m <;>
                  simp [entrypoint, entrypointBody, hres, hkw, hfn, hrun]
              · simp [entrypoint, entrypointBody, hres, hkw, hfn, hrun]

/-- C9 witness: with no loader reference in the known-good environment, the
configuration handed to the run collaborator is the default loader's return
value. -/
theorem c9_defensive_copy_witness :
    Event.runCall [] ∈ (entrypoint envOk (lit ".") none [] [] false).2 ∧
    (envOk.default_loader (lit ".") = .ok [] ∨
      ∃ path loader kwargs, (none : Option Str) = some path ∧
        envOk.import_loader_function path = .ok loader ∧
        process_kwargs [] = .ok kwargs ∧
        loader.fn (lit ".") [] kwargs = .ok []) :=
  ⟨by decide,
    (c9_defensive_copy envOk (lit ".") none [] [] false).1 [] (by decide)⟩

end LittleCheesemonger
